import Mathlib

/-!
Shallow embedding of `src/wally-registry-backend/src/auth.rs` (the
authentication/authorization layer of the wally package registry) and
verification of its specification.

Modelling conventions:
* Rust `&str` / `String` values are modelled as `List Char` (Rust byte
  slicing at index 6 after a `"Bearer "` prefix check only ever slices at an
  ASCII character boundary, so character-level slicing agrees with
  byte-level slicing at every use site).
* Network I/O is modelled by passing the upstream responses explicitly: for
  each of the three outbound GitHub calls the `Upstream` structure carries
  `none` for a transport failure, or the received status code together with
  the result of `serde` body deserialization (`none` = body did not parse).
* Error returns are classified by the spec's error taxonomy; each
  constructor of `AuthError` corresponds to a fixed (message, HTTP status)
  pair occurring in the source, documented on the constructor.
* `unwrap`/`expect` on misconfiguration (a process abort in Rust) is
  modelled by the `Outcome.aborted` constructor.
* Rust `u64` identities are modelled as `Nat` (no arithmetic is performed
  on them).
-/

namespace WallyAuth

/-- Rust `char::is_whitespace`: the Unicode `White_Space` property
(U+0009..U+000D, U+0020, U+0085, U+00A0, U+1680, U+2000..U+200A, U+2028,
U+2029, U+202F, U+205F, U+3000). Used by `str::trim`. -/
def rustIsWhitespace (c : Char) : Bool :=
  (9 ≤ c.val && c.val ≤ 13) || c.val = 32 || c.val = 0x85 || c.val = 0xA0 ||
  c.val = 0x1680 || (0x2000 ≤ c.val && c.val ≤ 0x200A) ||
  c.val = 0x2028 || c.val = 0x2029 || c.val = 0x202F || c.val = 0x205F ||
  c.val = 0x3000

/-- Leading-whitespace removal, first half of Rust `str::trim`. -/
def trimStart (l : List Char) : List Char := l.dropWhile rustIsWhitespace

/-- Trailing-whitespace removal, second half of Rust `str::trim`. -/
def trimEnd (l : List Char) : List Char :=
  (l.reverse.dropWhile rustIsWhitespace).reverse

/-- Rust `str::trim`: remove leading and trailing whitespace. -/
def rustTrim (l : List Char) : List Char := trimEnd (trimStart l)

/-- The byte sequence a string is compared by (`str::as_bytes`). The UTF-8
byte encoding is abstracted as the (equally injective) sequence of code
points; every string compared in the source is compared for equality only,
which is unaffected by this abstraction. -/
def bytes (l : List Char) : List Nat := l.map Char.toNat

/-- Modelled from the spec: the `constant_time_eq` crate (a dependency, not
part of `src/`) accumulates the XOR of every byte pair into a running OR
over the whole (equal-length) input — a non-short-circuiting loop, per spec
§4.1 "constant-time byte comparison (equal-length, non-short-circuiting)".
This is the inner loop's accumulated value. -/
def constant_time_ne (a b : List Nat) : Nat :=
  (List.zipWith (fun x y => x ^^^ y) a b).foldl (fun acc d => acc ||| d) 0

/-- Modelled from the spec: `constant_time_eq(a, b)` — length check, then
the accumulated XOR/OR loop must come out zero. -/
def constant_time_eq (a b : List Nat) : Bool :=
  a.length == b.length && constant_time_ne a b == 0

/-- Cost model for the comparison loop: the loop body runs once per zipped
byte pair, regardless of the bytes' values (no early exit). -/
def constant_time_ne_iterations (a b : List Nat) : Nat :=
  (List.zipWith (fun x y => x ^^^ y) a b).length

/-- The spec's error taxonomy (§7); each constructor corresponds to a fixed
(message, HTTP status) pair in `auth.rs`:
* `missingCredential`  — "API key required" / "Github auth required", 401;
* `invalidCredential`  — "Invalid API key for read access" /
  "Github auth failed: …" / "GitHub auth was invalid", 401;
* `upstreamUnexpected` — "Github auth failed because: {status}", 422;
* `transportFailure`   — a reqwest transport error, 500. -/
inductive AuthError where
  | missingCredential
  | invalidCredential
  | upstreamUnexpected (status : Nat)
  | transportFailure
deriving DecidableEq

/-- A rocket request `Outcome`, extended with `aborted` to record a process
abort (`unwrap`/`expect` on a misconfigured backend). -/
inductive Outcome (α : Type) where
  | success (a : α)
  | failure (e : AuthError)
  | aborted (msg : String)
deriving DecidableEq

def Outcome.map {α β : Type} (f : α → β) : Outcome α → Outcome β
  | .success a => .success (f a)
  | .failure e => .failure e
  | .aborted m => .aborted m

def Outcome.isAborted {α : Type} : Outcome α → Bool
  | .aborted _ => true
  | _ => false

/-- The bearer-token extraction performed identically at the top of
`match_api_key` and of `verify_github` (auth.rs:93-100 and 147-154):
the single `authorization` header value must start with the literal
`"Bearer "`; its remainder after byte index 6 (i.e. including the space)
is whitespace-trimmed. `none` models the `return`ed 401 "required" error. -/
def extract_bearer (header : Option (List Char)) : Option (List Char) :=
  match header with
  | some key =>
    if "Bearer ".data.isPrefixOf key then some (rustTrim (key.drop 6)) else none
  | none => none

/-- Source function `match_api_key` (auth.rs:92-109). -/
def match_api_key {α : Type} (header : Option (List Char)) (key : List Char)
    (result : α) : Outcome α :=
  match extract_bearer header with
  | none => .failure .missingCredential
  | some input_api_key =>
    if constant_time_eq (bytes key) (bytes input_api_key) then
      .success result
    else
      .failure .invalidCredential

/-- Repeatedly strip a (reversed) pattern from the front of a (reversed)
list; fuel-based so that it reduces definitionally. Each successful step
consumes at least one character, so `l.length` fuel is always enough. -/
def stripRepFuel : Nat → List Char → List Char → List Char
  | 0, _, l => l
  | n + 1, pat, l =>
    if pat.isPrefixOf l && !pat.isEmpty then stripRepFuel n pat (l.drop pat.length)
    else l

/-- Rust `str::trim_end_matches`: repeatedly remove a trailing occurrence of
`pat` (used with `".git"` and `'/'` in `extract_github_owner_repo`). -/
def trim_end_matches (l pat : List Char) : List Char :=
  (stripRepFuel l.length pat.reverse l.reverse).reverse

/-- Rust `str::split(sep)` for a one-character separator: empty segments
are preserved and splitting the empty string yields one empty segment. -/
def splitOnChar (sep : Char) : List Char → List (List Char)
  | [] => [[]]
  | c :: rest =>
    match splitOnChar sep rest with
    | x :: xs => if c = sep then [] :: x :: xs else (c :: x) :: xs
    | [] => if c = sep then [[], []] else [[c]]

/-- Source function `extract_github_owner_repo` (auth.rs:111-129): strip an optional
`https://` / `http://` scheme, strip all trailing `".git"` then all
trailing `'/'`, split on `'/'`, and require at least three parts with the
first equal to `github.com`. -/
def extract_github_owner_repo (url : List Char) : Option (List Char × List Char) :=
  let u1 :=
    if "https://".data.isPrefixOf url then url.drop 8
    else if "http://".data.isPrefixOf url then url.drop 7
    else url
  let u2 := trim_end_matches (trim_end_matches u1 ".git".data) "/".data
  match splitOnChar '/' u2 with
  | gh :: org :: repo :: _ => if gh = "github.com".data then some (org, repo) else none
  | _ => none

/-- Whether `l` ends with `pat`. -/
def endsWithL (pat l : List Char) : Bool := pat.reverse.isPrefixOf l.reverse

/-- Remove a suffix of `pat.length` characters. -/
def dropSuffixL (pat l : List Char) : List Char :=
  (l.reverse.drop pat.length).reverse

/-- The ways an optional trailing `pat` of a regex can be consumed: not at
all, or (when `l` ends with `pat`) once. -/
def stripSuffixOpt (pat l : List Char) : List (List Char) :=
  if endsWithL pat l then [l, dropSuffixL pat l] else [l]

/-- Whether `l` is `<owner>/<repo>` with both segments nonempty and `'/'`-free. -/
def segTwoNonempty (l : List Char) : Bool :=
  match splitOnChar '/' l with
  | [owner, repo] => !owner.isEmpty && !repo.isEmpty
  | _ => false

/-- Follows the spec's words (§4.2/§8): membership in the language of the
regex `(https://|http://)?github.com/<owner>/<repo>(.git)?(/)?`, reading
`<owner>` and `<repo>` as nonempty `'/'`-free character runs. The whole
string must be consumed; the two optional suffixes are tried both ways. -/
def spec_index_url_matches (url : List Char) : Bool :=
  let afterScheme :=
    if "https://".data.isPrefixOf url then url.drop 8
    else if "http://".data.isPrefixOf url then url.drop 7
    else url
  "github.com/".data.isPrefixOf afterScheme &&
    ((stripSuffixOpt "/".data (afterScheme.drop 11)).any fun r1 =>
      (stripSuffixOpt ".git".data r1).any fun r2 => segTwoNonempty r2)

/-- Source struct `GithubInfo` (auth.rs:40-54): the `{login, id}` identity parsed from
GitHub's user endpoint. -/
structure GithubInfo where
  login : List Char
  id : Nat
deriving DecidableEq

/-- Source enum `AuthMode` (auth.rs:17-38). -/
inductive AuthMode where
  | apiKey (key : List Char)
  | doubleApiKey (read : Option (List Char)) (write : List Char)
  | githubOAuth (client_id client_secret : List Char)
  | githubOAuthPrivate (client_id client_secret : List Char)
  | unauthenticated

/-- The part of the backend `Config` consumed by `auth.rs`: the active
`AuthMode`, and `index_url` / `github_token` used by the collaborator
check. -/
structure Config where
  auth : AuthMode
  index_url : List Char
  github_token : Option (List Char)

/-- Source enum `IndexAccessPolicy` (auth.rs:135-139). -/
inductive IndexAccessPolicy where
  | optional
  | required
deriving DecidableEq

/-- Upstream response to `GET https://api.github.com/user`: the HTTP status
and the result of deserializing the body as `GithubInfo`. -/
structure UserResponse where
  status : Nat
  body : Option GithubInfo
deriving DecidableEq

/-- Upstream response to `POST /applications/{client_id}/token`: the HTTP
status and the result of deserializing the body as `ValidatedGithubInfo`
(whose fields are checked for presence but never used, hence `Unit`). -/
structure TokenResponse where
  status : Nat
  body : Option Unit
deriving DecidableEq

/-- Upstream response to the collaborator-permission endpoint: the HTTP
status and the deserialized `permission` field of `GithubPermissionInfo`. -/
structure PermissionResponse where
  status : Nat
  body : Option (List Char)
deriving DecidableEq

/-- The three outbound GitHub calls a single `verify_github` run may make,
in order; `none` models a transport failure of that call. -/
structure Upstream where
  user : Option UserResponse
  token : Option TokenResponse
  permission : Option PermissionResponse
deriving DecidableEq

/-- Source function `verify_github` (auth.rs:141-271), with the network modelled by
`Upstream`. Control flow, in source order: bearer extraction (401 on
missing/ill-prefixed header); `GET /user` (transport error → 500, body
deserialization only — the status is never inspected — parse failure →
401); `POST /applications/{client_id}/token` (transport error → 500,
status 200 → deserialize body with parse failure → 401, status 422 → 401,
any other status → 422 UpstreamUnexpected); then, only when the policy is
`required`: `expect`-loaded config, `unwrap` of
`extract_github_owner_repo(index_url)` and of `github_token` (abort on
misconfiguration), collaborator-permission call (transport error → 500,
parse failure → 401), and the permission must be `admin`, `write` or
`read` (else 401). Success returns the step-1 identity. -/
def verify_github (header : Option (List Char)) (_client_id _client_secret : List Char)
    (index_access_policy : IndexAccessPolicy) (cfg : Config) (up : Upstream) :
    Outcome GithubInfo :=
  match extract_bearer header with
  | none => .failure .missingCredential
  | some _token =>
    match up.user with
    | none => .failure .transportFailure
    | some resp =>
      match resp.body with
      | none => .failure .invalidCredential
      | some github_info =>
        match up.token with
        | none => .failure .transportFailure
        | some resp2 =>
          if resp2.status = 200 then
            match resp2.body with
            | none => .failure .invalidCredential
            | some _ =>
              if index_access_policy = .required then
                match extract_github_owner_repo cfg.index_url with
                | none => .aborted "called Option::unwrap() on a None value"
                | some _owner_repo =>
                  match cfg.github_token with
                  | none => .aborted "called Option::unwrap() on a None value"
                  | some _server_token =>
                    match up.permission with
                    | none => .failure .transportFailure
                    | some resp3 =>
                      match resp3.body with
                      | none => .failure .invalidCredential
                      | some perm =>
                        if perm = "admin".data ∨ perm = "write".data ∨ perm = "read".data then
                          .success github_info
                        else
                          .failure .invalidCredential
              else .success github_info
          else if resp2.status = 422 then .failure .invalidCredential
          else .failure (.upstreamUnexpected resp2.status)

/-- Source enum `ReadAccess` (auth.rs:274-279). -/
inductive ReadAccess where
  | publicAccess
  | apiKey
  | github (info : GithubInfo)
deriving DecidableEq

/-- Source enum `WriteAccess` (auth.rs:313-316). -/
inductive WriteAccess where
  | apiKey
  | github (info : GithubInfo)
deriving DecidableEq

/-- Source impl `FromRequest for ReadAccess` (auth.rs:287-311), with the
request's `authorization` header and the upstream network passed
explicitly. The `State<Config>` guard is modelled as the `cfg` argument. -/
def readAccess_from_request (cfg : Config) (header : Option (List Char))
    (up : Upstream) : Outcome ReadAccess :=
  match cfg.auth with
  | .unauthenticated => .success .publicAccess
  | .githubOAuth _ _ => .success .publicAccess
  | .githubOAuthPrivate client_id client_secret =>
    (verify_github header client_id client_secret .required cfg up).map .github
  | .apiKey key => match_api_key header key .apiKey
  | .doubleApiKey none _ => .success .publicAccess
  | .doubleApiKey (some key) _ => match_api_key header key .apiKey

/-- Source impl `FromRequest for WriteAccess` (auth.rs:350-377). The
`Unauthenticated` branch returns the 401 "Invalid API key for write
access". -/
def writeAccess_from_request (cfg : Config) (header : Option (List Char))
    (up : Upstream) : Outcome WriteAccess :=
  match cfg.auth with
  | .unauthenticated => .failure .invalidCredential
  | .apiKey key => match_api_key header key .apiKey
  | .doubleApiKey _ write => match_api_key header write .apiKey
  | .githubOAuth client_id client_secret =>
    (verify_github header client_id client_secret .optional cfg up).map .github
  | .githubOAuthPrivate client_id client_secret =>
    (verify_github header client_id client_secret .required cfg up).map .github

/-- Rust `str::to_lowercase` as used on an ASCII GitHub login; full Unicode
lowercasing is abstracted to the per-character ASCII mapping. -/
def rust_to_lowercase (l : List Char) : List Char := l.map Char.toLower

/-- The package index interface consumed by `can_write_package` (external
`libwally::package_index::PackageIndex`, out of scope per spec §1): the two
fallible ownership queries. -/
structure PackageIndex where
  is_scope_owner : List Char → Nat → Except String Bool
  get_scope_owners : List Char → Except String (List Nat)

/-- Source method `WriteAccess::can_write_package` (auth.rs:324-348). The package's scope
(extracted from the `PackageId` by out-of-scope parsing code) is passed
directly. Mirrors the source's `?` propagation and the short-circuit of
`&&`: `get_scope_owners` is only consulted when the lower-cased login
equals the scope. -/
def can_write_package (acc : WriteAccess) (scope : List Char)
    (index : PackageIndex) : Except String Bool :=
  match acc with
  | .apiKey => .ok true
  | .github github_info =>
    match index.is_scope_owner scope github_info.id with
    | .error e => .error e
    | .ok true => .ok true
    | .ok false =>
      if rust_to_lowercase github_info.login = scope then
        match index.get_scope_owners scope with
        | .error e => .error e
        | .ok owners => .ok owners.isEmpty
      else .ok false

example : extract_github_owner_repo "https://github.com/org/repo.git".data =
    some ("org".data, "repo".data) := by decide

example : extract_github_owner_repo "github.com/org/repo/".data =
    some ("org".data, "repo".data) := by decide

example : extract_github_owner_repo "https://gitlab.com/org/repo".data = none := by decide

example : extract_github_owner_repo "github.com/org/repo/x".data =
    some ("org".data, "repo".data) := by decide

example : spec_index_url_matches "github.com/org/repo/x".data = false := by decide

example : spec_index_url_matches "github.com/org/.git".data = true := by decide

example : extract_github_owner_repo "github.com/org/.git".data = none := by decide

example : match_api_key (some "Bearer k".data) "k".data () = .success () := by decide

example : match_api_key (some "Bearer\tk".data) "k".data () =
    .failure .missingCredential := by decide

example : match_api_key (some "Bearer   k  ".data) "k".data () = .success () := by decide

example :
    verify_github (some "Bearer t".data) "cid".data "sec".data .optional
      ⟨.unauthenticated, [], none⟩
      ⟨some ⟨500, some ⟨"octocat".data, 1⟩⟩, some ⟨200, some ()⟩, none⟩ =
    .success ⟨"octocat".data, 1⟩ := by decide


/-! ## General lemmas about the comparison and trimming primitives -/

theorem nat_or_eq_zero {m n : Nat} : m ||| n = 0 ↔ m = 0 ∧ n = 0 := by
  constructor
  · intro h
    refine ⟨Nat.eq_of_testBit_eq fun k => ?_, Nat.eq_of_testBit_eq fun k => ?_⟩ <;>
    · have h2 := congrArg (fun x => Nat.testBit x k) h
      simp only [Nat.testBit_or, Nat.zero_testBit, Bool.or_eq_false_iff] at h2
      simp [h2]
  · rintro ⟨rfl, rfl⟩
    rfl

theorem foldl_or_eq_zero (l : List Nat) (acc : Nat) :
    l.foldl (fun a d => a ||| d) acc = 0 ↔ acc = 0 ∧ ∀ x ∈ l, x = 0 := by
  induction l generalizing acc with
  | nil => simp
  | cons x xs ih =>
    simp only [List.foldl_cons, ih, nat_or_eq_zero, List.mem_cons]
    constructor
    · rintro ⟨⟨h1, h2⟩, h3⟩
      exact ⟨h1, fun y hy => hy.elim (fun e => e ▸ h2) (h3 y)⟩
    · rintro ⟨h1, h2⟩
      exact ⟨⟨h1, h2 x (Or.inl rfl)⟩, fun y hy => h2 y (Or.inr hy)⟩

theorem zip_xor_all_zero (a : List Nat) : ∀ b : List Nat,
    (a.length = b.length ∧ ∀ x ∈ List.zipWith (fun x y => x ^^^ y) a b, x = 0) ↔ a = b := by
  induction a with
  | nil => intro b; cases b <;> simp
  | cons x xs ih =>
    intro b
    cases b with
    | nil => simp
    | cons y ys =>
      simp only [List.length_cons, List.zipWith_cons_cons, List.mem_cons,
        List.cons.injEq, Nat.add_right_cancel_iff]
      constructor
      · rintro ⟨hlen, hall⟩
        have hx : x = y := Nat.xor_eq_zero.mp (hall _ (Or.inl rfl))
        have hxs : xs = ys := (ih ys).mp ⟨hlen, fun z hz => hall z (Or.inr hz)⟩
        exact ⟨hx, hxs⟩
      · rintro ⟨rfl, rfl⟩
        refine ⟨rfl, fun z hz => ?_⟩
        rcases hz with h | h
        · simp [h]
        · exact ((ih xs).mpr rfl).2 z h

theorem constant_time_eq_true_iff (a b : List Nat) :
    constant_time_eq a b = true ↔ a = b := by
  unfold constant_time_eq constant_time_ne
  rw [Bool.and_eq_true, beq_iff_eq, beq_iff_eq, foldl_or_eq_zero]
  rw [← zip_xor_all_zero a b]
  tauto

theorem char_toNat_injective : Function.Injective Char.toNat := by
  intro c d h
  rw [← Char.ofNat_toNat c, ← Char.ofNat_toNat d, h]

theorem bytes_eq_iff (a b : List Char) : bytes a = bytes b ↔ a = b := by
  unfold bytes
  constructor
  · intro h
    exact List.map_injective_iff.mpr char_toNat_injective h
  · intro h
    rw [h]

theorem constant_time_eq_bytes_iff (a b : List Char) :
    constant_time_eq (bytes a) (bytes b) = true ↔ a = b := by
  rw [constant_time_eq_true_iff, bytes_eq_iff]

/-! ## Claims C1, C2, C6, C9 -/

/-- C1: for every verified write access and package scope (with both index
queries succeeding), `can_write_package` returns true for `ApiKey` access;
for `Github` access it returns true when `is_scope_owner` reports true, and
otherwise returns true exactly when the lower-cased login equals the scope
and the scope's owner set is empty, returning false in every other
combination. -/
theorem claim_C1 (scope : List Char) (index : PackageIndex) (info : GithubInfo)
    (b : Bool) (owners : List Nat)
    (h1 : index.is_scope_owner scope info.id = .ok b)
    (h2 : index.get_scope_owners scope = .ok owners) :
    can_write_package .apiKey scope index = .ok true ∧
    (b = true → can_write_package (.github info) scope index = .ok true) ∧
    (b = false →
      (can_write_package (.github info) scope index = .ok true ↔
        rust_to_lowercase info.login = scope ∧ owners = [])) ∧
    (b = false → ¬(rust_to_lowercase info.login = scope ∧ owners = []) →
      can_write_package (.github info) scope index = .ok false) := by
  refine ⟨rfl, ?_, ?_, ?_⟩
  · rintro rfl
    simp [can_write_package, h1]
  · rintro rfl
    simp only [can_write_package, h1]
    by_cases hl : rust_to_lowercase info.login = scope
    · simp only [hl, if_pos rfl, h2]
      cases owners <;> simp [List.isEmpty]
    · simp only [if_neg hl]
      constructor
      · intro h
        cases h
      · rintro ⟨h, -⟩
        exact absurd h hl
  · rintro rfl hno
    simp only [can_write_package, h1]
    by_cases hl : rust_to_lowercase info.login = scope
    · simp only [hl, if_pos rfl, h2]
      cases owners with
      | nil => exact absurd ⟨hl, rfl⟩ hno
      | cons o os => simp [List.isEmpty]
    · simp [if_neg hl]

/-- Witness for C1 at concrete inputs: the "claim an unowned scope matching
your own (case-insensitively) username" bootstrap rule grants write access,
and a non-owner with a different login is refused. -/
theorem claim_C1_witness :
    can_write_package (.github ⟨"Alice".data, 5⟩) "alice".data
      ⟨fun _ _ => .ok false, fun _ => .ok []⟩ = .ok true ∧
    can_write_package (.github ⟨"bob".data, 5⟩) "alice".data
      ⟨fun _ _ => .ok false, fun _ => .ok []⟩ = .ok false := by
  constructor
  · exact ((claim_C1 "alice".data ⟨fun _ _ => .ok false, fun _ => .ok []⟩
      ⟨"Alice".data, 5⟩ false [] rfl rfl).2.2.1 rfl).mpr (by decide)
  · exact (claim_C1 "alice".data ⟨fun _ _ => .ok false, fun _ => .ok []⟩
      ⟨"bob".data, 5⟩ false [] rfl rfl).2.2.2 rfl (by decide)

/-- C2: `match_api_key` succeeds exactly when the request carries an
`authorization` header with the literal prefix "Bearer " whose (trimmed)
token equals the configured key; a missing header or wrong prefix yields
the missing-credential error, and a present, well-prefixed token different
from the key yields the invalid-credential error. -/
theorem claim_C2 {α : Type} (key : List Char) (r : α) :
    match_api_key none key r = .failure .missingCredential ∧
    ∀ h : List Char,
      (¬ "Bearer ".data.isPrefixOf h = true →
        match_api_key (some h) key r = .failure .missingCredential) ∧
      ("Bearer ".data.isPrefixOf h = true →
        (match_api_key (some h) key r = .success r ↔ rustTrim (h.drop 6) = key) ∧
        (rustTrim (h.drop 6) ≠ key →
          match_api_key (some h) key r = .failure .invalidCredential)) := by
  refine ⟨rfl, fun h => ⟨?_, ?_⟩⟩
  · intro hpre
    simp only [match_api_key, extract_bearer]
    rw [if_neg (by simpa using hpre)]
  · intro hpre
    simp only [match_api_key, extract_bearer, if_pos hpre]
    constructor
    · constructor
      · intro hs
        by_cases hc : constant_time_eq (bytes key) (bytes (rustTrim (h.drop 6))) = true
        · exact (constant_time_eq_bytes_iff _ _).mp hc |>.symm
        · rw [if_neg hc] at hs
          cases hs
      · intro he
        rw [if_pos ((constant_time_eq_bytes_iff _ _).mpr he.symm)]
    · intro hne
      rw [if_neg fun hc => hne ((constant_time_eq_bytes_iff _ _).mp hc).symm]

/-- Witness for C2 at concrete inputs: the exact key is granted, a
truncated key and a case-altered key are denied as invalid, and a
wrong-prefix header is denied as missing. -/
theorem claim_C2_witness :
    match_api_key (some "Bearer secret".data) "secret".data () = .success () ∧
    match_api_key (some "Bearer secre".data) "secret".data () = .failure .invalidCredential ∧
    match_api_key (some "Bearer Secret".data) "secret".data () = .failure .invalidCredential ∧
    match_api_key (some "bearer secret".data) "secret".data () = .failure .missingCredential := by
  refine ⟨?_, ?_, ?_, ?_⟩
  · exact (((claim_C2 "secret".data ()).2 "Bearer secret".data).2 (by decide)).1.mpr (by decide)
  · exact (((claim_C2 "secret".data ()).2 "Bearer secre".data).2 (by decide)).2 (by decide)
  · exact (((claim_C2 "secret".data ()).2 "Bearer Secret".data).2 (by decide)).2 (by decide)
  · exact ((claim_C2 "secret".data ()).2 "bearer secret".data).1 (by decide)

/-- C6: when the configured mode is `Unauthenticated`, `GithubOAuth`, or
`DoubleApiKey` with `read = None`, read-access resolution returns `Public`
for every request header and every upstream behaviour (so no key comparison
and no external verification can influence the result). -/
theorem claim_C6 (header : Option (List Char)) (up : Upstream)
    (cid cs write iu : List Char) (gt : Option (List Char)) :
    readAccess_from_request ⟨.unauthenticated, iu, gt⟩ header up = .success .publicAccess ∧
    readAccess_from_request ⟨.githubOAuth cid cs, iu, gt⟩ header up = .success .publicAccess ∧
    readAccess_from_request ⟨.doubleApiKey none write, iu, gt⟩ header up =
      .success .publicAccess :=
  ⟨rfl, rfl, rfl⟩

/-- C9: the comparison `match_api_key` performs is the constant-time
crate's non-short-circuiting loop over the token bytes: the number of loop
iterations depends only on the operand lengths (so for every correct-length
wrong key it is independent of the position of the first mismatched byte),
the loop computes exact byte-sequence equality, and `match_api_key`
succeeds exactly when that comparison accepts. -/
theorem claim_C9 :
    (∀ key t t' : List Nat, t.length = key.length → t'.length = key.length →
      constant_time_ne_iterations key t = constant_time_ne_iterations key t') ∧
    (∀ a b : List Nat, constant_time_eq a b = true ↔ a = b) ∧
    (∀ (header : Option (List Char)) (key input : List Char),
      extract_bearer header = some input →
      (match_api_key header key () = .success () ↔
        constant_time_eq (bytes key) (bytes input) = true)) := by
  refine ⟨?_, constant_time_eq_true_iff, ?_⟩
  · intro key t t' ht ht'
    unfold constant_time_ne_iterations
    rw [List.length_zipWith, List.length_zipWith, ht, ht']
  · intro header key input hx
    simp only [match_api_key, hx]
    by_cases hc : constant_time_eq (bytes key) (bytes input) = true
    · simp [hc]
    · rw [if_neg hc]
      simp only [Bool.not_eq_true] at hc
      constructor
      · intro h
        cases h
      · intro h
        rw [h] at hc
        cases hc

/-- Witness for C9 at concrete inputs: two same-length wrong keys whose
first mismatch is at different byte positions take the same number of loop
iterations, and the comparison drives a concrete `match_api_key` success. -/
theorem claim_C9_witness :
    constant_time_ne_iterations (bytes "secret".data) (bytes "Xecret".data) =
      constant_time_ne_iterations (bytes "secret".data) (bytes "secreX".data) ∧
    (constant_time_eq (bytes "ab".data) (bytes "ab".data) = true ↔
      bytes "ab".data = bytes "ab".data) ∧
    (match_api_key (some "Bearer ab".data) "ab".data () = .success () ↔
      constant_time_eq (bytes "ab".data) (bytes "ab".data) = true) :=
  ⟨claim_C9.1 (bytes "secret".data) (bytes "Xecret".data) (bytes "secreX".data)
      (by decide) (by decide),
   claim_C9.2.1 (bytes "ab".data) (bytes "ab".data),
   claim_C9.2.2 (some "Bearer ab".data) "ab".data "ab".data (by decide)⟩

/-! ## Claims C3, C4, C5 about the GitHub verification protocol -/

/-- C3 counterexample: the source never inspects the status of the
`GET /user` response — an upstream reply with status 500 whose body
nevertheless parses as `{login, id}` does NOT fail with the
invalid-credential error (as the claim demands for every non-2xx
response); verification proceeds and, under the `Optional` policy with a
successful token validation, even succeeds. -/
theorem claim_C3_cex :
    verify_github (some "Bearer t".data) "cid".data "sec".data .optional
      ⟨.unauthenticated, [], none⟩
      ⟨some ⟨500, some ⟨"octocat".data, 1⟩⟩, some ⟨200, some ()⟩, none⟩ =
      .success ⟨"octocat".data, 1⟩ ∧
    verify_github (some "Bearer t".data) "cid".data "sec".data .optional
      ⟨.unauthenticated, [], none⟩
      ⟨some ⟨500, some ⟨"octocat".data, 1⟩⟩, some ⟨200, some ()⟩, none⟩ ≠
      .failure .invalidCredential := by
  exact ⟨by decide, by decide⟩

/-- C3 (amended): in step 1 of `verify_github` (identity lookup), every
upstream response whose body does not parse as `{login, id}` makes
verification fail with the invalid-credential error; the response's HTTP
status is never inspected at this step (the result is unchanged under any
replacement of the status); and only a transport failure on this call maps
to an internal (transport) error. -/
theorem claim_C3 (header : Option (List Char)) (cid cs : List Char)
    (policy : IndexAccessPolicy) (cfg : Config) (up : Upstream) (tok : List Char)
    (hb : extract_bearer header = some tok) :
    (up.user = none →
      verify_github header cid cs policy cfg up = .failure .transportFailure) ∧
    (∀ resp, up.user = some resp → resp.body = none →
      verify_github header cid cs policy cfg up = .failure .invalidCredential) ∧
    (∀ resp s, up.user = some resp →
      verify_github header cid cs policy cfg { up with user := some { resp with status := s } } =
        verify_github header cid cs policy cfg up) := by
  refine ⟨?_, ?_, ?_⟩
  · intro hu
    simp [verify_github, hb, hu]
  · intro resp hu hbody
    simp [verify_github, hb, hu, hbody]
  · intro resp s hu
    simp [verify_github, hb, hu]

/-- Witness for C3 at concrete inputs: a transport failure on the user
call is an internal error, and an unparseable body is an auth failure. -/
theorem claim_C3_witness :
    verify_github (some "Bearer t".data) "c".data "s".data .optional
      ⟨.unauthenticated, [], none⟩ ⟨none, none, none⟩ = .failure .transportFailure ∧
    verify_github (some "Bearer t".data) "c".data "s".data .optional
      ⟨.unauthenticated, [], none⟩ ⟨some ⟨401, none⟩, none, none⟩ =
      .failure .invalidCredential := by
  constructor
  · exact (claim_C3 (some "Bearer t".data) "c".data "s".data .optional
      ⟨.unauthenticated, [], none⟩ ⟨none, none, none⟩ "t".data (by decide)).1 rfl
  · exact (claim_C3 (some "Bearer t".data) "c".data "s".data .optional
      ⟨.unauthenticated, [], none⟩ ⟨some ⟨401, none⟩, none, none⟩ "t".data
      (by decide)).2.1 ⟨401, none⟩ rfl rfl

/-- C4: in step 2 of `verify_github` (token-grant validation), once step 1
has produced an identity: a step-2 status of 422 fails with the
invalid-credential error, any status other than 200 and 422 fails with the
unexpected-upstream error carrying that status, a 200 whose body fails to
parse fails with the invalid-credential error, a step-2 transport failure
is an internal (transport) error, and a 200 with a parsed body lets
verification proceed (under the `Optional` policy it succeeds with the
step-1 identity). In every non-succeeding step-2 case the result is the
same for every behaviour of the collaborator-permission upstream — that
call is never issued. -/
theorem claim_C4 (header : Option (List Char)) (cid cs : List Char)
    (policy : IndexAccessPolicy) (cfg : Config) (up : Upstream)
    (tok : List Char) (r1 : UserResponse) (info : GithubInfo)
    (hb : extract_bearer header = some tok)
    (h1 : up.user = some r1) (h1b : r1.body = some info) :
    (∀ resp2, up.token = some resp2 → resp2.status = 422 →
      ∀ p, verify_github header cid cs policy cfg { up with permission := p } =
        .failure .invalidCredential) ∧
    (∀ resp2, up.token = some resp2 → resp2.status ≠ 200 → resp2.status ≠ 422 →
      ∀ p, verify_github header cid cs policy cfg { up with permission := p } =
        .failure (.upstreamUnexpected resp2.status)) ∧
    (∀ resp2, up.token = some resp2 → resp2.status = 200 → resp2.body = none →
      ∀ p, verify_github header cid cs policy cfg { up with permission := p } =
        .failure .invalidCredential) ∧
    (up.token = none →
      ∀ p, verify_github header cid cs policy cfg { up with permission := p } =
        .failure .transportFailure) ∧
    (∀ resp2, up.token = some resp2 → resp2.status = 200 → resp2.body = some () →
      verify_github header cid cs .optional cfg up = .success info) := by
  refine ⟨?_, ?_, ?_, ?_, ?_⟩
  · intro resp2 h2 hs p
    simp [verify_github, hb, h1, h1b, h2, hs]
  · intro resp2 h2 hs200 hs422 p
    simp [verify_github, hb, h1, h1b, h2, hs200, hs422]
  · intro resp2 h2 hs hbody p
    simp [verify_github, hb, h1, h1b, h2, hs, hbody]
  · intro h2 p
    simp [verify_github, hb, h1, h1b, h2]
  · intro resp2 h2 hs hbody
    simp [verify_github, hb, h1, h1b, h2, hs, hbody]

/-- Witness for C4 at concrete inputs: 422 on step 2 yields the
invalid-credential error with an untouched (here: transport-failing)
permission upstream, an unexpected 503 carries its status, and 200 with a
parsed body succeeds under the `Optional` policy. -/
theorem claim_C4_witness :
    verify_github (some "Bearer t".data) "c".data "s".data .required
      ⟨.unauthenticated, [], none⟩
      ⟨some ⟨200, some ⟨"octocat".data, 1⟩⟩, some ⟨422, none⟩, none⟩ =
      .failure .invalidCredential ∧
    verify_github (some "Bearer t".data) "c".data "s".data .required
      ⟨.unauthenticated, [], none⟩
      ⟨some ⟨200, some ⟨"octocat".data, 1⟩⟩, some ⟨503, none⟩, none⟩ =
      .failure (.upstreamUnexpected 503) ∧
    verify_github (some "Bearer t".data) "c".data "s".data .optional
      ⟨.unauthenticated, [], none⟩
      ⟨some ⟨200, some ⟨"octocat".data, 1⟩⟩, some ⟨200, some ()⟩, none⟩ =
      .success ⟨"octocat".data, 1⟩ := by
  refine ⟨?_, ?_, ?_⟩
  · exact (claim_C4 (some "Bearer t".data) "c".data "s".data .required
      ⟨.unauthenticated, [], none⟩
      ⟨some ⟨200, some ⟨"octocat".data, 1⟩⟩, some ⟨422, none⟩, none⟩
      "t".data ⟨200, some ⟨"octocat".data, 1⟩⟩ ⟨"octocat".data, 1⟩
      (by decide) rfl rfl).1 ⟨422, none⟩ rfl rfl none
  · exact (claim_C4 (some "Bearer t".data) "c".data "s".data .required
      ⟨.unauthenticated, [], none⟩
      ⟨some ⟨200, some ⟨"octocat".data, 1⟩⟩, some ⟨503, none⟩, none⟩
      "t".data ⟨200, some ⟨"octocat".data, 1⟩⟩ ⟨"octocat".data, 1⟩
      (by decide) rfl rfl).2.1 ⟨503, none⟩ rfl (by decide) (by decide) none
  · exact (claim_C4 (some "Bearer t".data) "c".data "s".data .optional
      ⟨.unauthenticated, [], none⟩
      ⟨some ⟨200, some ⟨"octocat".data, 1⟩⟩, some ⟨200, some ()⟩, none⟩
      "t".data ⟨200, some ⟨"octocat".data, 1⟩⟩ ⟨"octocat".data, 1⟩
      (by decide) rfl rfl).2.2.2.2 ⟨200, some ()⟩ rfl rfl rfl

/-- C5: under the `Required` policy, with steps 1 and 2 successful and a
well-configured backend, `verify_github` succeeds exactly when the parsed
collaborator `permission` field is "admin", "write" or "read" (any other
value fails with the invalid-credential error), and on success the
returned identity is exactly the `{login, id}` parsed in step 1 — steps 2
and 3 contribute no identity. -/
theorem claim_C5 (header : Option (List Char)) (cid cs : List Char) (cfg : Config)
    (up : Upstream) (tok : List Char) (r1 : UserResponse) (info : GithubInfo)
    (resp2 : TokenResponse) (resp3 : PermissionResponse)
    (ownerRepo : List Char × List Char) (serverTok : List Char) (perm : List Char)
    (hb : extract_bearer header = some tok)
    (h1 : up.user = some r1) (h1b : r1.body = some info)
    (h2 : up.token = some resp2) (h2s : resp2.status = 200) (h2b : resp2.body = some ())
    (hurl : extract_github_owner_repo cfg.index_url = some ownerRepo)
    (htok : cfg.github_token = some serverTok)
    (h3 : up.permission = some resp3) (h3b : resp3.body = some perm) :
    ((perm = "admin".data ∨ perm = "write".data ∨ perm = "read".data) →
      verify_github header cid cs .required cfg up = .success info) ∧
    (¬(perm = "admin".data ∨ perm = "write".data ∨ perm = "read".data) →
      verify_github header cid cs .required cfg up = .failure .invalidCredential) := by
  constructor
  · intro hperm
    simp [verify_github, hb, h1, h1b, h2, h2s, h2b, hurl, htok, h3, h3b, hperm]
  · intro hperm
    simp [verify_github, hb, h1, h1b, h2, h2s, h2b, hurl, htok, h3, h3b, hperm]

/-- Witness for C5 at concrete inputs (the spec's end-to-end scenario):
collaborator permission "read" grants access with the step-1 identity, and
permission "none" is denied with the invalid-credential error. -/
theorem claim_C5_witness :
    verify_github (some "Bearer t".data) "c".data "s".data .required
      ⟨.githubOAuthPrivate "c".data "s".data, "https://github.com/org/repo".data,
        some "srv".data⟩
      ⟨some ⟨200, some ⟨"octocat".data, 1⟩⟩, some ⟨200, some ()⟩,
        some ⟨200, some "read".data⟩⟩ = .success ⟨"octocat".data, 1⟩ ∧
    verify_github (some "Bearer t".data) "c".data "s".data .required
      ⟨.githubOAuthPrivate "c".data "s".data, "https://github.com/org/repo".data,
        some "srv".data⟩
      ⟨some ⟨200, some ⟨"octocat".data, 1⟩⟩, some ⟨200, some ()⟩,
        some ⟨200, some "none".data⟩⟩ = .failure .invalidCredential := by
  constructor
  · exact (claim_C5 (some "Bearer t".data) "c".data "s".data
      ⟨.githubOAuthPrivate "c".data "s".data, "https://github.com/org/repo".data,
        some "srv".data⟩
      ⟨some ⟨200, some ⟨"octocat".data, 1⟩⟩, some ⟨200, some ()⟩,
        some ⟨200, some "read".data⟩⟩
      "t".data ⟨200, some ⟨"octocat".data, 1⟩⟩ ⟨"octocat".data, 1⟩
      ⟨200, some ()⟩ ⟨200, some "read".data⟩ ("org".data, "repo".data) "srv".data
      "read".data (by decide) rfl rfl rfl rfl rfl (by decide) rfl rfl rfl).1
      (by decide)
  · exact (claim_C5 (some "Bearer t".data) "c".data "s".data
      ⟨.githubOAuthPrivate "c".data "s".data, "https://github.com/org/repo".data,
        some "srv".data⟩
      ⟨some ⟨200, some ⟨"octocat".data, 1⟩⟩, some ⟨200, some ()⟩,
        some ⟨200, some "none".data⟩⟩
      "t".data ⟨200, some ⟨"octocat".data, 1⟩⟩ ⟨"octocat".data, 1⟩
      ⟨200, some ()⟩ ⟨200, some "none".data⟩ ("org".data, "repo".data) "srv".data
      "none".data (by decide) rfl rfl rfl rfl rfl (by decide) rfl rfl rfl).2
      (by decide)

/-! ## Claim C8: the unwrap-on-misconfiguration aborts -/

/-- C8: the collaborator-check step of `verify_github` aborts the process
exactly when the configured `index_url` fails to parse as a GitHub
owner/repo reference or the configured `github_token` is absent: for every
configuration satisfying the private-OAuth invariant (parseable
`index_url`, present `github_token`) no input whatsoever can reach an
abort; and whenever the collaborator-check step is reached (well-formed
bearer header, parsed step-1 identity, 200 + parsed body on step 2, policy
`Required`), the run aborts precisely when the url fails to parse or the
token is absent. -/
theorem claim_C8 :
    (∀ (header : Option (List Char)) (cid cs : List Char) (policy : IndexAccessPolicy)
      (cfg : Config) (up : Upstream),
      (extract_github_owner_repo cfg.index_url).isSome = true →
      cfg.github_token.isSome = true →
      (verify_github header cid cs policy cfg up).isAborted = false) ∧
    (∀ (header : Option (List Char)) (cid cs : List Char) (cfg : Config) (up : Upstream)
      (tok : List Char) (r1 : UserResponse) (info : GithubInfo) (resp2 : TokenResponse),
      extract_bearer header = some tok →
      up.user = some r1 → r1.body = some info →
      up.token = some resp2 → resp2.status = 200 → resp2.body = some () →
      ((verify_github header cid cs .required cfg up).isAborted = true ↔
        (extract_github_owner_repo cfg.index_url = none ∨ cfg.github_token = none))) := by
  constructor
  · intro header cid cs policy cfg up hurl htok
    obtain ⟨orp, horp⟩ := Option.isSome_iff_exists.mp hurl
    obtain ⟨st, hst⟩ := Option.isSome_iff_exists.mp htok
    unfold verify_github
    repeat' split
    all_goals simp_all [Outcome.isAborted]
  · intro header cid cs cfg up tok r1 info resp2 hb h1 h1b h2 h2s h2b
    simp only [verify_github, hb, h1, h1b, h2, h2s, h2b]
    norm_num
    cases hurl : extract_github_owner_repo cfg.index_url with
    | none => simp [Outcome.isAborted]
    | some orp =>
      cases htok : cfg.github_token with
      | none => simp [Outcome.isAborted]
      | some st =>
        simp only [Outcome.isAborted]
        cases hp : up.permission with
        | none => simp [Outcome.isAborted]
        | some r3 =>
          cases hpb : r3.body with
          | none => simp [Outcome.isAborted, hpb]
          | some perm =>
            simp only [hpb]
            by_cases hperm : perm = "admin".data ∨ perm = "write".data ∨ perm = "read".data
            · simp [hperm, Outcome.isAborted]
            · simp [hperm, Outcome.isAborted]

/-- Witness for C8 at concrete inputs: a good configuration never aborts
(even at the collaborator step), while a missing server token at the
collaborator step aborts. -/
theorem claim_C8_witness :
    (verify_github (some "Bearer t".data) "c".data "s".data .required
      ⟨.unauthenticated, "github.com/org/repo".data, some "srv".data⟩
      ⟨some ⟨200, some ⟨"octocat".data, 1⟩⟩, some ⟨200, some ()⟩, none⟩).isAborted =
      false ∧
    ((verify_github (some "Bearer t".data) "c".data "s".data .required
      ⟨.unauthenticated, "github.com/org/repo".data, none⟩
      ⟨some ⟨200, some ⟨"octocat".data, 1⟩⟩, some ⟨200, some ()⟩, none⟩).isAborted =
      true ↔
      (extract_github_owner_repo "github.com/org/repo".data = none ∨
        (none : Option (List Char)) = none)) := by
  constructor
  · exact claim_C8.1 (some "Bearer t".data) "c".data "s".data .required
      ⟨.unauthenticated, "github.com/org/repo".data, some "srv".data⟩
      ⟨some ⟨200, some ⟨"octocat".data, 1⟩⟩, some ⟨200, some ()⟩, none⟩
      (by decide) rfl
  · exact claim_C8.2 (some "Bearer t".data) "c".data "s".data
      ⟨.unauthenticated, "github.com/org/repo".data, none⟩
      ⟨some ⟨200, some ⟨"octocat".data, 1⟩⟩, some ⟨200, some ()⟩, none⟩
      "t".data ⟨200, some ⟨"octocat".data, 1⟩⟩ ⟨"octocat".data, 1⟩ ⟨200, some ()⟩
      (by decide) rfl rfl rfl rfl rfl

/-! ## Claim C7: the index-URL parser versus the spec regex -/

/-- C7 counterexample: the parser's accepted set is not exactly the
language of `(https://|http://)?github.com/<owner>/<repo>(.git)?(/)?`.
In one direction, a URL with an extra path segment is outside the regex
language yet parses to `(org, repo)`; in the other, a repository literally
named ".git" is inside the regex language (nonempty, `/`-free) yet the
parser rejects it, because `trim_end_matches(".git")` consumes the whole
segment. -/
theorem claim_C7_cex :
    (extract_github_owner_repo "github.com/org/repo/x".data =
        some ("org".data, "repo".data) ∧
      spec_index_url_matches "github.com/org/repo/x".data = false) ∧
    (spec_index_url_matches "github.com/org/.git".data = true ∧
      extract_github_owner_repo "github.com/org/.git".data = none) := by
  exact ⟨⟨by decide, by decide⟩, ⟨by decide, by decide⟩⟩

/-- C7 (amended): on the spec's stated examples the parser agrees with the
regex — "https://github.com/org/repo.git", "github.com/org/repo/" and
"http://github.com/org/repo" all parse to `(org, repo)`, and
"https://gitlab.com/org/repo" fails to parse — but the regex does not
exactly characterize the accepted set (see the counterexample). -/
theorem claim_C7 :
    extract_github_owner_repo "https://github.com/org/repo.git".data =
      some ("org".data, "repo".data) ∧
    extract_github_owner_repo "github.com/org/repo/".data =
      some ("org".data, "repo".data) ∧
    extract_github_owner_repo "http://github.com/org/repo".data =
      some ("org".data, "repo".data) ∧
    extract_github_owner_repo "https://gitlab.com/org/repo".data = none ∧
    spec_index_url_matches "https://github.com/org/repo.git".data = true ∧
    spec_index_url_matches "github.com/org/repo/".data = true ∧
    spec_index_url_matches "http://github.com/org/repo".data = true ∧
    spec_index_url_matches "https://gitlab.com/org/repo".data = false := by
  refine ⟨by decide, by decide, by decide, by decide, by decide, by decide, by decide,
    by decide⟩

/-! ## Claim C10: whitespace trimming of the extracted bearer token -/

theorem dropWhile_length_le (p : Char → Bool) (l : List Char) :
    (l.dropWhile p).length ≤ l.length := by
  induction l with
  | nil => simp
  | cons x xs ih =>
    by_cases h : p x
    · simp [List.dropWhile, h]
      omega
    · simp [List.dropWhile, h]

theorem dropWhile_append_all (p : Char → Bool) (ws l : List Char)
    (h : ∀ c ∈ ws, p c = true) :
    (ws ++ l).dropWhile p = l.dropWhile p := by
  induction ws with
  | nil => rfl
  | cons x xs ih =>
    have hx : p x = true := h x (by simp)
    simp only [List.cons_append, List.dropWhile, hx]
    exact ih fun c hc => h c (by simp [hc])

theorem head_not_of_dropWhile_self (p : Char → Bool) (c : Char) (t : List Char)
    (h : (c :: t).dropWhile p = c :: t) : p c = false := by
  cases hp : p c
  · rfl
  · exfalso
    rw [List.dropWhile_cons, hp] at h
    have := dropWhile_length_le p t
    have := congrArg List.length h
    simp at this
    omega

theorem dropWhile_idem (p : Char → Bool) (l : List Char) :
    (l.dropWhile p).dropWhile p = l.dropWhile p := by
  induction l with
  | nil => rfl
  | cons x xs ih =>
    cases hp : p x
    · simp [List.dropWhile_cons, hp]
    · simp only [List.dropWhile_cons, hp]
      exact ih

theorem dropWhile_isSuffix (p : Char → Bool) (l : List Char) :
    l.dropWhile p <:+ l := by
  induction l with
  | nil => exact List.suffix_refl []
  | cons x xs ih =>
    cases hp : p x
    · simp [List.dropWhile_cons, hp]
    · simp only [List.dropWhile_cons, hp]
      exact ih.trans (List.suffix_cons x xs)

/-- Trimming a token surrounded by whitespace, with the token itself
having no leading or trailing whitespace, recovers exactly the token. -/
theorem rustTrim_sandwich (ws1 ws2 t : List Char)
    (hw1 : ∀ c ∈ ws1, rustIsWhitespace c = true)
    (hw2 : ∀ c ∈ ws2, rustIsWhitespace c = true)
    (ht1 : t.dropWhile rustIsWhitespace = t)
    (ht2 : t.reverse.dropWhile rustIsWhitespace = t.reverse) :
    rustTrim (ws1 ++ t ++ ws2) = t := by
  unfold rustTrim trimStart trimEnd
  rw [List.append_assoc, dropWhile_append_all _ ws1 _ hw1]
  cases t with
  | nil =>
    rw [List.nil_append]
    have : ws2.dropWhile rustIsWhitespace = [] := by
      have := dropWhile_append_all _ ws2 [] hw2
      simpa using this
    simp [this]
  | cons c t0 =>
    have hc : rustIsWhitespace c = false := head_not_of_dropWhile_self _ _ _ ht1
    rw [List.cons_append, List.dropWhile_cons, hc]
    have hrev : ((c :: t0) ++ ws2).reverse = ws2.reverse ++ (c :: t0).reverse := by
      rw [List.reverse_append]
    show (((c :: t0 ++ ws2).reverse).dropWhile rustIsWhitespace).reverse = c :: t0
    rw [hrev, dropWhile_append_all _ ws2.reverse _ (by
      intro x hx
      exact hw2 x (List.mem_reverse.mp hx)), ht2, List.reverse_reverse]

/-- The result of `rustTrim` is a fixed point of `rustTrim`. -/
theorem rustTrim_idem (l : List Char) : rustTrim (rustTrim l) = rustTrim l := by
  unfold rustTrim trimStart trimEnd
  set p := rustIsWhitespace with hp
  set m := l.dropWhile p with hm
  have hmfix : m.dropWhile p = m := dropWhile_idem p l
  obtain ⟨u, hu⟩ := dropWhile_isSuffix p m.reverse
  have hmdecomp : m = (m.reverse.dropWhile p).reverse ++ u.reverse := by
    have : m.reverse.reverse = (u ++ m.reverse.dropWhile p).reverse := by rw [hu]
    rwa [List.reverse_reverse, List.reverse_append] at this
  have hstart : ((m.reverse.dropWhile p).reverse).dropWhile p =
      (m.reverse.dropWhile p).reverse := by
    cases he : (m.reverse.dropWhile p).reverse with
    | nil => rfl
    | cons c rest =>
      have hmc : m = c :: (rest ++ u.reverse) := by
        rw [hmdecomp, he, List.cons_append]
      have hcfalse : p c = false := by
        apply head_not_of_dropWhile_self p c (rest ++ u.reverse)
        rw [← hmc]
        exact hmfix
      simp [List.dropWhile_cons, hcfalse]
  rw [hstart, List.reverse_reverse, dropWhile_idem]

/-- C10 counterexample: the claim quantifies over every surrounding
whitespace, but when the whitespace separating "Bearer" from the token
begins with a tab instead of a space the literal prefix "Bearer " does not
match, so the credential is not extracted at all and the request is
rejected as missing a credential — not accepted with credential "tok". -/
theorem claim_C10_cex :
    match_api_key (some "Bearer\ttok".data) "tok".data () =
      .failure .missingCredential ∧
    extract_bearer (some "Bearer\ttok".data) = none := by
  exact ⟨by decide, by decide⟩

/-- C10 (amended): in the shared bearer-extraction step (used by both the
API-key path and the GitHub path), when the whitespace after "Bearer"
begins with a literal space — so the header has the form
`"Bearer " ++ ws1 ++ t ++ ws2` — and the token `t` itself has no leading
or trailing whitespace, the extracted credential is exactly `t`; hence a
token differing from the configured key only by such surrounding
whitespace is accepted, and an expected key with leading or trailing
whitespace can never match. -/
theorem claim_C10 (ws1 ws2 t key : List Char)
    (hw1 : ∀ c ∈ ws1, rustIsWhitespace c = true)
    (hw2 : ∀ c ∈ ws2, rustIsWhitespace c = true)
    (ht1 : t.dropWhile rustIsWhitespace = t)
    (ht2 : t.reverse.dropWhile rustIsWhitespace = t.reverse) :
    extract_bearer (some ("Bearer ".data ++ (ws1 ++ t ++ ws2))) = some t ∧
    (t = key →
      match_api_key (some ("Bearer ".data ++ (ws1 ++ t ++ ws2))) key () =
        .success ()) ∧
    (∀ header : List Char, rustTrim key ≠ key →
      match_api_key (some header) key () ≠ .success ()) := by
  have hext : extract_bearer (some ("Bearer ".data ++ (ws1 ++ t ++ ws2))) = some t := by
    simp only [extract_bearer]
    rw [if_pos (by
      rw [ List.isPrefixOf_iff_prefix]
      exact List.prefix_append _ _)]
    have hdrop : ("Bearer ".data ++ (ws1 ++ t ++ ws2)).drop 6 =
        ' ' :: (ws1 ++ t ++ ws2) := by
      have : "Bearer ".data = ['B', 'e', 'a', 'r', 'e', 'r', ' '] := rfl
      rw [this]
      rfl
    rw [hdrop]
    have : ' ' :: (ws1 ++ t ++ ws2) = (' ' :: ws1) ++ t ++ ws2 := by
      simp [List.cons_append, List.append_assoc]
    rw [this, rustTrim_sandwich (' ' :: ws1) ws2 t
      (by
        intro c hc
        rcases List.mem_cons.mp hc with h | h
        · rw [h]; rfl
        · exact hw1 c h)
      hw2 ht1 ht2]
  refine ⟨hext, ?_, ?_⟩
  · rintro rfl
    simp only [match_api_key, hext]
    rw [if_pos ((constant_time_eq_bytes_iff _ _).mpr rfl)]
  · intro header hkey hmatch
    cases hx : extract_bearer (some header) with
    | none => simp [match_api_key, hx] at hmatch
    | some input =>
      simp only [match_api_key, hx] at hmatch
      by_cases hc : constant_time_eq (bytes key) (bytes input) = true
      · have hkeyinput : key = input := (constant_time_eq_bytes_iff _ _).mp hc
        simp only [extract_bearer] at hx
        by_cases hpre : "Bearer ".data.isPrefixOf header = true
        · rw [if_pos hpre] at hx
          have hinput : input = rustTrim (header.drop 6) := (Option.some.injEq _ _).mp hx.symm
          apply hkey
          rw [hkeyinput, hinput, rustTrim_idem]
        · rw [if_neg hpre] at hx
          cases hx
      · rw [if_neg hc] at hmatch
        cases hmatch

/-- Witness for C10 at concrete inputs: a space-then-tab padded token is
extracted exactly, matches the matching key, and a key with trailing
whitespace can never be matched. -/
theorem claim_C10_witness :
    extract_bearer (some ("Bearer ".data ++ (" ".data ++ "tok".data ++ "\t ".data))) =
      some "tok".data ∧
    match_api_key (some ("Bearer ".data ++ (" ".data ++ "tok".data ++ "\t ".data)))
      "tok".data () = .success () ∧
    match_api_key (some "Bearer tok ".data) "tok ".data () ≠ .success () := by
  have h := claim_C10 " ".data "\t ".data "tok".data "tok".data
    (by decide) (by decide) (by decide) (by decide)
  have h2 := claim_C10 " ".data "\t ".data "tok".data "tok ".data
    (by decide) (by decide) (by decide) (by decide)
  exact ⟨h.1, h.2.1 rfl, h2.2.2 "Bearer tok ".data (by decide)⟩

end WallyAuth
